import Mathlib

/-!
Verification of the tolerant JSON extraction and repair layer of the scaffy
backend (src/backend/utils/json_parser.py), as a shallow embedding in Lean.

Strings are modelled as lists of unicode characters (Python `str`).
Documents (the results of `json.loads`) are modelled by `JsonValue`.
The model of `json.loads` is a recursive-descent parser over the JSON
grammar restricted to integer numerals (the repository's documents carry
integer ids; float, NaN/Infinity numerals and surrogate-pair escapes are
outside the model).  Fallible Python code is embedded in `Except PyErr`;
the in-place mutation performed by `validate_task_breakdown` on its input
dict is embedded by explicit state passing (the function returns the final
dictionary alongside its result).
-/

/-- Python strings are lists of characters. -/
abbrev Str := List Char

/-- A parsed JSON document: the result type of the `json.loads` model. -/
inductive JsonValue where
  | null : JsonValue
  | bool : Bool → JsonValue
  | int : Int → JsonValue
  | str : Str → JsonValue
  | arr : List JsonValue → JsonValue
  | obj : List (Str × JsonValue) → JsonValue

/-- Exceptions that can escape the embedded Python code. -/
inductive PyErr where
  | valueError (msg : Str) : PyErr
  | attributeError : PyErr
  | typeError : PyErr
deriving DecidableEq

/-- JSON whitespace, the only whitespace skipped by `json.loads`. -/
def jsonWs (c : Char) : Bool :=
  c = ' ' || c = '\t' || c = '\n' || c = '\r'

/-- Whitespace stripped by Python `str.strip` and matched by the `\s` of a
regular expression over `str` (the ASCII and latin-1 members; the exotic
unicode space code points never occur in the texts under study). -/
def pyWs (c : Char) : Bool :=
  c = ' ' || c = '\t' || c = '\n' || c = '\r' || c = '\x0b' || c = '\x0c'
    || c = '\x1c' || c = '\x1d' || c = '\x1e' || c = '\x1f' || c = '\x85'
    || c = '\xa0'

/-- Leading-whitespace removal of `json.loads`. -/
def skipWs (s : Str) : Str := s.dropWhile jsonWs

/-- Python truthiness of a document value (`if result:`). -/
def pyTruthy : JsonValue → Bool
  | .null => false
  | .bool b => b
  | .int n => n != 0
  | .str s => !s.isEmpty
  | .arr l => !l.isEmpty
  | .obj l => !l.isEmpty

/-- Whether a value is a Python dict (`isinstance(result, dict)`). -/
def JsonValue.isObj : JsonValue → Bool
  | .obj _ => true
  | _ => false

/-- Whether a value is a Python int proper. -/
def JsonValue.isInt : JsonValue → Bool
  | .int _ => true
  | _ => false

/-- Whether a value is a Python bool. -/
def JsonValue.isBool : JsonValue → Bool
  | .bool _ => true
  | _ => false

/-- Python dict insertion (last value wins, original position kept), used to
assemble the member list of a parsed JSON object exactly as `dict` does. -/
def dictInsert (ps : List (Str × JsonValue)) (k : Str) (v : JsonValue) :
    List (Str × JsonValue) :=
  if ps.any (fun p => p.1 = k) then
    ps.map (fun p => if p.1 = k then (k, v) else p)
  else
    ps ++ [(k, v)]

/-- Value of one hexadecimal digit (code points 0-9, a-f, A-F). -/
def hexVal (c : Char) : Option Nat :=
  let n := c.toNat
  if 48 ≤ n ∧ n ≤ 57 then some (n - 48)
  else if 97 ≤ n ∧ n ≤ 102 then some (n - 87)
  else if 65 ≤ n ∧ n ≤ 70 then some (n - 55)
  else none

/-- Fold a parsed member list into a Python dict (last-wins insertion). -/
def objOfPairs (ps : List (Str × JsonValue)) : List (Str × JsonValue) :=
  ps.foldl (fun acc p => dictInsert acc p.1 p.2) []

/-- Four hexadecimal digits of a `\\u` escape: the decoded character and
the remaining input. -/
def parseHex4 : Str → Option (Char × Str)
  | h1 :: h2 :: h3 :: h4 :: r3 =>
    match hexVal h1, hexVal h2, hexVal h3, hexVal h4 with
    | some a, some b, some c, some d =>
      some (Char.ofNat (((a * 16 + b) * 16 + c) * 16 + d), r3)
    | _, _, _, _ => none
  | _ => none

/-- One backslash escape of a JSON string, after the backslash: the decoded
character and the remaining input. -/
def parseEscape : Str → Option (Char × Str)
  | [] => none
  | e :: rest2 =>
    if e = '"' || e = '\\' || e = '/' then some (e, rest2)
    else if e = 'n' then some ('\n', rest2)
    else if e = 't' then some ('\t', rest2)
    else if e = 'r' then some ('\r', rest2)
    else if e = 'b' then some ('\x08', rest2)
    else if e = 'f' then some ('\x0c', rest2)
    else if e = 'u' then parseHex4 rest2
    else none

/-- Body of a JSON string literal, after the opening quote: returns the
decoded content and the input remaining after the closing quote.  Raw
control characters are rejected (`json.loads` is strict) and the standard
backslash escapes are decoded.  Fuel bounds the iteration and is always
sufficient when instantiated with the input length. -/
def parseStringBodyF : Nat → Str → Option (Str × Str)
  | 0, _ => none
  | _ + 1, [] => none
  | fuel + 1, c :: rest =>
    if c = '"' then some ([], rest)
    else if c = '\\' then
      match parseEscape rest with
      | some (d, rest2) =>
        match parseStringBodyF fuel rest2 with
        | some (s, r) => some (d :: s, r)
        | none => none
      | none => none
    else if c.toNat < 32 then none
    else
      match parseStringBodyF fuel rest with
      | some (s, r) => some (c :: s, r)
      | none => none

/-- Decimal digits of a natural number. -/
def natDigits (n : Nat) : Str := Nat.toDigits 10 n

/-- Python `str` of an int. -/
def intStr : Int → Str
  | .ofNat n => natDigits n
  | .negSucc n => '-' :: natDigits (n + 1)

/-- Digit test. -/
def isDigit (c : Char) : Bool := '0' ≤ c && c ≤ '9'

/-- Numeric value of a digit string. -/
def digitsToNat (acc : Nat) : Str → Nat
  | [] => acc
  | c :: r => digitsToNat (acc * 10 + (c.toNat - '0'.toNat)) r

/-- The digit run opening a JSON numeral: `0` alone, or a nonzero digit
followed by digits (the leading-zero rule of the grammar); returns the
digits and the remaining input. -/
def splitDigits : Str → Option (Str × Str)
  | [] => none
  | c :: r =>
    if !isDigit c then none
    else if c = '0' then some ([c], r)
    else some (c :: r.takeWhile isDigit, r.dropWhile isDigit)

/-- An unsigned JSON integer numeral at the head of the input.  A numeral
continued by `.`, `e` or `E` is a float, which is outside this model, so
the parse fails there rather than mis-reading it. -/
def parseNumMag (s : Str) : Option (Int × Str) :=
  match splitDigits s with
  | some (ds, rest) =>
    match rest with
    | d :: _ =>
      if d = '.' || d = 'e' || d = 'E' then none
      else some (Int.ofNat (digitsToNat 0 ds), rest)
    | [] => some (Int.ofNat (digitsToNat 0 ds), rest)
  | none => none

/-- JSON integer numeral at the head of the input: an optional minus sign,
then the unsigned numeral. -/
def parseNumber (s : Str) : Option (Int × Str) :=
  match s with
  | '-' :: r =>
    match parseNumMag r with
    | some (n, rest) => some (-n, rest)
    | none => none
  | _ =>
    match parseNumMag s with
    | some (n, rest) => some (n, rest)
    | none => none

/-- Whether the literal is a prefix of the input; on success the remaining
input after it. -/
def expectLit (lit s : Str) : Option Str :=
  if lit.isPrefixOf s then some (s.drop lit.length) else none

mutual

/-- One JSON value at the head of the input (whitespace already skipped);
returns the value and the remaining input.  Fuel bounds the nesting and is
always sufficient when instantiated with the input length. -/
def parseCoreF : Nat → Str → Option (JsonValue × Str)
  | 0, _ => none
  | _ + 1, [] => none
  | fuel + 1, c :: rest =>
    if c = '{' then
      let r1 := skipWs rest
      match r1 with
      | '}' :: r2 => some (.obj [], r2)
      | _ =>
        match parseMembersF fuel r1 with
        | some (ps, r2) => some (.obj (objOfPairs ps), r2)
        | none => none
    else if c = '[' then
      let r1 := skipWs rest
      match r1 with
      | ']' :: r2 => some (.arr [], r2)
      | _ =>
        match parseElemsF fuel r1 with
        | some (vs, r2) => some (.arr vs, r2)
        | none => none
    else if c = '"' then
      match parseStringBodyF (rest.length + 1) rest with
      | some (s, r) => some (.str s, r)
      | none => none
    else if c = 't' then
      match expectLit "rue".data rest with
      | some r => some (.bool true, r)
      | none => none
    else if c = 'f' then
      match expectLit "alse".data rest with
      | some r => some (.bool false, r)
      | none => none
    else if c = 'n' then
      match expectLit "ull".data rest with
      | some r => some (.null, r)
      | none => none
    else
      match parseNumber (c :: rest) with
      | some (n, r) => some (.int n, r)
      | none => none

/-- Members of a JSON object, positioned at the first key (whitespace
skipped, input known not to start with the closing brace of an empty
object); consumes through the closing brace. -/
def parseMembersF : Nat → Str → Option (List (Str × JsonValue) × Str)
  | 0, _ => none
  | fuel + 1, s =>
    match s with
    | '"' :: r0 =>
      match parseStringBodyF (r0.length + 1) r0 with
      | some (k, r1) =>
        match skipWs r1 with
        | ':' :: r3 =>
          match parseCoreF fuel (skipWs r3) with
          | some (v, r5) =>
            match skipWs r5 with
            | '}' :: r7 => some ([(k, v)], r7)
            | ',' :: r7 =>
              match parseMembersF fuel (skipWs r7) with
              | some (ps, r8) => some ((k, v) :: ps, r8)
              | none => none
            | _ => none
          | none => none
        | _ => none
      | none => none
    | _ => none

/-- Elements of a JSON array, positioned at the first element; consumes
through the closing bracket. -/
def parseElemsF : Nat → Str → Option (List JsonValue × Str)
  | 0, _ => none
  | fuel + 1, s =>
    match parseCoreF fuel s with
    | some (v, r1) =>
      match skipWs r1 with
      | ']' :: r2 => some ([v], r2)
      | ',' :: r2 =>
        match parseElemsF fuel (skipWs r2) with
        | some (vs, r3) => some (v :: vs, r3)
        | none => none
      | _ => none
    | none => none

end

/-- Model of `json.loads`: parse one value surrounded by optional JSON
whitespace; anything else remaining is the Extra-data error. -/
def parseJsonL (s : Str) : Option JsonValue :=
  match parseCoreF (s.length + 1) (skipWs s) with
  | some (v, r) => if skipWs r = [] then some v else none
  | none => none

/-- Python `str.strip` with no argument: remove leading whitespace. -/
def dropLeadingWs (s : Str) : Str := s.dropWhile pyWs

/-- Remove trailing Python whitespace (`str.rstrip`). -/
def dropTrailingWs (s : Str) : Str := (s.reverse.dropWhile pyWs).reverse

/-- Python `str.strip`. -/
def pyStrip (s : Str) : Str := dropTrailingWs (dropLeadingWs s)

/-- Python `str.rstrip`. -/
def pyRStrip (s : Str) : Str := dropTrailingWs s

/-- One backtick character. -/
def btick : Char := '\x60'

/-- First substitution of `_remove_markdown`: strip a leading markdown fence
tagged `json` (pattern anchored at the start, case-insensitive, followed by
optional whitespace). -/
def stripFenceOpenJson (s : Str) : Str :=
  match s with
  | b1 :: b2 :: b3 :: c1 :: c2 :: c3 :: c4 :: rest =>
    if b1 = btick && b2 = btick && b3 = btick
        && c1.toLower = 'j' && c2.toLower = 's' && c3.toLower = 'o'
        && c4.toLower = 'n' then
      dropLeadingWs rest
    else s
  | _ => s

/-- Second substitution of `_remove_markdown`: strip a leading untagged
fence followed by optional whitespace. -/
def stripFenceOpen (s : Str) : Str :=
  match s with
  | b1 :: b2 :: b3 :: rest =>
    if b1 = btick && b2 = btick && b3 = btick then dropLeadingWs rest else s
  | _ => s

/-- Third substitution of `_remove_markdown`: remove a trailing fence with
the whitespace around it (the pattern is anchored at the end, so it matches
exactly when the text, ignoring trailing whitespace, ends in a fence). -/
def stripFenceClose (s : Str) : Str :=
  let r1 := dropTrailingWs s
  if [btick, btick, btick].isSuffixOf r1 then
    dropTrailingWs (r1.take (r1.length - 3))
  else s

/-- Model of `_remove_markdown`: strip, then the three substitutions. -/
def removeMarkdown (t : Str) : Str :=
  stripFenceClose (stripFenceOpen (stripFenceOpenJson (pyStrip t)))

/-- Model of `_try_direct_parse`.  On a successful parse the function logs
`list(result.keys())` before returning; that attribute access raises
`AttributeError` whenever the parsed value is not a dict, so only a dict can
be returned.  A parse failure is caught and becomes `none`. -/
def tryDirectParse (s : Str) : Except PyErr (Option JsonValue) :=
  match parseJsonL s with
  | some v => if v.isObj then .ok (some v) else .error .attributeError
  | none => .ok none

/-- Split on newline characters (Python `str.split('\n')`). -/
def splitNl : Str → List Str
  | [] => [[]]
  | c :: r =>
    if c = '\n' then [] :: splitNl r
    else
      match splitNl r with
      | [] => [[c]]
      | l :: ls => (c :: l) :: ls

/-- Join lines with newline characters. -/
def joinNl (ls : List Str) : Str := List.intercalate ['\n'] ls

/-- The field names whose string values `_fix_json_issues` treats as
multi-line content. -/
def fixKeyNames : List Str :=
  ["code_snippet".data, "code".data, "file_content".data, "content".data]

/-- Whether the regular expression of `_fix_json_issues` matches at the head
of the input: a quoted key from `fixKeyNames`, optional whitespace, a colon,
optional whitespace, an opening quote. -/
def fixPatternAt (s : Str) : Bool :=
  fixKeyNames.any fun k =>
    if ('"' :: k ++ ['"']).isPrefixOf s then
      match dropLeadingWs (s.drop (k.length + 2)) with
      | ':' :: r2 =>
        match dropLeadingWs r2 with
        | '"' :: _ => true
        | _ => false
      | _ => false
    else false

/-- Whether the regular expression of `_fix_json_issues` matches anywhere in
the line (`pattern.search`). -/
def fixPatternSearch (line : Str) : Bool :=
  line.tails.any fixPatternAt

/-- The escaping `_fix_json_issues` applies to an accumulated content line:
double each backslash, then escape each double quote. -/
def escContentLine (l : Str) : Str :=
  l.flatMap fun c =>
    if c = '\\' then ['\\', '\\']
    else if c = '"' then ['\\', '"']
    else [c]

/-- Whether a line starts the multi-line handling of `_fix_json_issues`: the
pattern occurs and the line does not already close the string value. -/
def fixTrigger (line : Str) : Bool :=
  fixPatternSearch line
    && !(['"', ','].isSuffixOf (pyRStrip line))
    && !(['"', '}'].isSuffixOf (pyRStrip line))

/-- Inner loop of `_fix_json_issues`: scan forward for a line that ends the
string value, escaping and accumulating the lines in between.  Returns the
text to append to the triggering line and the lines remaining after the
terminator, or `none` when the scan exhausts the input with the string still
open (in which case the source keeps only the triggering line and, by
advancing its index past the end, drops every line after it). -/
def findTerm : List Str → List Str → Option (Str × List Str)
  | [], _ => none
  | nl :: rest, acc =>
    let stripped := pyStrip nl
    let ends :=
      (['"', ','].isSuffixOf stripped) || (['"', '}'].isSuffixOf stripped)
        || ((['"'].isSuffixOf stripped)
            && (match rest with
                | [] => true
                | nx :: _ => nx.contains '{' || nx.contains '}'))
    if ends then
      some ((if acc.isEmpty then [] else List.intercalate ['\\', 'n'] acc)
              ++ stripped, rest)
    else findTerm rest (acc ++ [escContentLine nl])

/-- Outer loop of `_fix_json_issues` over the lines, with fuel bounding the
number of iterations (the line count suffices, since every step consumes at
least one line). -/
def fixLoopF : Nat → List Str → List Str
  | 0, _ => []
  | _ + 1, [] => []
  | fuel + 1, line :: rest =>
    if fixTrigger line then
      match findTerm rest [] with
      | some (tailPart, rest2) => (line ++ tailPart) :: fixLoopF fuel rest2
      | none => [line]
    else line :: fixLoopF fuel rest

/-- Model of `_fix_json_issues`. -/
def fixJsonIssues (s : Str) : Str :=
  joinNl (fixLoopF (splitNl s).length (splitNl s))

/-- Brace-matching scan of `_extract_and_fix_json`, started at the first
opening brace: track nesting depth and string state (honoring backslash
escapes) and return the index of the character that closes the outermost
brace, or `none` when the scan exhausts the text. -/
def findMatchEnd : Str → Nat → Bool → Bool → Nat → Option Nat
  | [], _, _, _, _ => none
  | c :: r, bc, inStr, esc, pos =>
    if esc then findMatchEnd r bc inStr false (pos + 1)
    else if c = '\\' then findMatchEnd r bc inStr true (pos + 1)
    else if c = '"' then findMatchEnd r bc (!inStr) false (pos + 1)
    else if !inStr && c = '{' then findMatchEnd r (bc + 1) inStr false (pos + 1)
    else if !inStr && c = '}' then
      if bc = 1 then some pos else findMatchEnd r (bc - 1) inStr false (pos + 1)
    else findMatchEnd r bc inStr false (pos + 1)

/-- Quote-toggling scan of `_complete_and_parse_truncated`: whether the end
of the text lies inside an open string, honoring backslash escapes. -/
def inStringToggle : Str → Bool → Bool → Bool
  | [], inStr, _ => inStr
  | c :: r, inStr, esc =>
    if esc then inStringToggle r inStr false
    else if c = '\\' then inStringToggle r inStr true
    else if c = '"' then inStringToggle r (!inStr) false
    else inStringToggle r inStr false

/-- Unescaped-quote count of `_complete_truncated_json` (the in-string test
there is this count's parity). -/
def quoteCountUE : Str → Bool → Nat
  | [], _ => 0
  | c :: r, esc =>
    if esc then quoteCountUE r false
    else if c = '\\' then quoteCountUE r true
    else if c = '"' then 1 + quoteCountUE r false
    else quoteCountUE r false

/-- Python substring membership (`needle in haystack`). -/
def isSubstr (needle hay : Str) : Bool :=
  hay.tails.any (fun t => needle.isPrefixOf t)

/-- The placeholder member `_complete_and_parse_truncated` injects when the
truncated text has no `task_todos` key. -/
def taskTodosText : Str :=
  "  \x22task_todos\x22: \x7b\x221\x22: [\x22Review and customize the file content\x22, \x22Test the file format\x22]\x7d\n".data

/-- Model of `_complete_and_parse_truncated`: only texts mentioning a code
field are completed; append a closing quote (and comma, newline) when the
cutoff is inside a string, the `task_todos` placeholder when that key is
missing, and a single closing brace, then re-attempt the parse. -/
def compAndParseTruncated (js : Str) : Except PyErr (Option JsonValue) :=
  if isSubstr "\x22code_snippet\x22".data js
      || isSubstr "\x22file_content\x22".data js then
    if !(['"', '}'].isSuffixOf (pyRStrip js)) then
      let c1 := js ++ (if inStringToggle js false false then ['"', ',', '\n'] else [])
      let c2 := c1 ++ (if isSubstr "\x22task_todos\x22".data js then []
                       else taskTodosText)
      tryDirectParse (c2 ++ ['}'])
    else .ok none
  else .ok none

/-- Model of `_extract_and_fix_json`: slice from the first opening brace to
its match, repair the slice and parse it; with no match, fall back to the
truncation completion above on the tail from the first opening brace. -/
def extractAndFixJson (t : Str) : Except PyErr (Option JsonValue) :=
  match t.findIdx? (· = '{') with
  | none => .ok none
  | some start =>
    let sub := t.drop start
    match findMatchEnd sub 0 false false 0 with
    | some endRel => tryDirectParse (fixJsonIssues (sub.take (endRel + 1)))
    | none => compAndParseTruncated sub

/-- Model of `_is_truncated`. -/
def isTruncated (t : Str) : Bool :=
  let tr := pyRStrip t
  if !(['}'].isSuffixOf tr) && !([']'].isSuffixOf tr) then true
  else if t.count '{' ≠ t.count '}' then true
  else false

/-- Model of `_complete_truncated_json`: append a closing quote when the
unescaped-quote count is odd, then one closing bracket per raw net-open
bracket and one closing brace per raw net-open brace. -/
def completeTruncatedJson (t : Str) : Str :=
  t ++ (if quoteCountUE t false % 2 = 1 then ['"'] else [])
    ++ List.replicate (t.count '[' - t.count ']') ']'
    ++ List.replicate (t.count '{' - t.count '}') '}'

/-- Inner loop of `_find_any_valid_json`: for one start position, try each
end position in turn, keeping the first substring that parses as a dict. -/
def tryEnds (t : Str) (start : Nat) : List Nat → Option JsonValue
  | [] => none
  | e :: es =>
    if t.get? (e - 1) = some '}' then
      match parseJsonL ((t.drop start).take (e - start)) with
      | some v => if v.isObj then some v else tryEnds t start es
      | none => tryEnds t start es
    else tryEnds t start es

/-- Outer loop of `_find_any_valid_json` over the opening-brace positions. -/
def tryStarts (t : Str) : List Nat → Option JsonValue
  | [] => none
  | s :: ss =>
    match tryEnds t s (List.range' (s + 2) (t.length - s - 1)) with
    | some v => some v
    | none => tryStarts t ss

/-- Model of `_find_any_valid_json`. -/
def findAnyValidJson (t : Str) : Option JsonValue :=
  tryStarts t ((List.range t.length).filter (fun i => t.get? i = some '{'))

/-- The message of the `ValueError` `extract_json_from_response` raises when
every strategy is exhausted. -/
def extractFailMsg : Str :=
  "Could not extract valid JSON from AI response.".data

/-- Step 6 of `extract_json_from_response`: last-resort scan, else raise. -/
def extractStep6 (t : Str) : Except PyErr JsonValue :=
  match findAnyValidJson t with
  | some v => if pyTruthy v then .ok v else .error (.valueError extractFailMsg)
  | none => .error (.valueError extractFailMsg)

/-- Step 5 of `extract_json_from_response`: truncation completion. -/
def extractStep5 (t : Str) : Except PyErr JsonValue :=
  if isTruncated t then
    match tryDirectParse (completeTruncatedJson t) with
    | .error e => .error e
    | .ok (some v) => if pyTruthy v then .ok v else extractStep6 t
    | .ok none => extractStep6 t
  else extractStep6 t

/-- Step 4 of `extract_json_from_response`: bracket-matched extraction, on
the original (uncleaned) text. -/
def extractStep4 (t : Str) : Except PyErr JsonValue :=
  match extractAndFixJson t with
  | .error e => .error e
  | .ok (some v) => if pyTruthy v then .ok v else extractStep5 t
  | .ok none => extractStep5 t

/-- Step 3 of `extract_json_from_response`: string-escaping repair of the
cleaned text, parsed only when the repair changed something. -/
def extractStep3 (t cleaned : Str) : Except PyErr JsonValue :=
  let fixed := fixJsonIssues cleaned
  if fixed ≠ cleaned then
    match tryDirectParse fixed with
    | .error e => .error e
    | .ok (some v) => if pyTruthy v then .ok v else extractStep4 t
    | .ok none => extractStep4 t
  else extractStep4 t

/-- Model of `extract_json_from_response`: markdown stripping, direct parse,
then the chain of repair strategies; each successful parse is returned only
when truthy (a parsed empty dict falls through to the next strategy). -/
def extractL (t : Str) : Except PyErr JsonValue :=
  let cleaned := removeMarkdown t
  match tryDirectParse cleaned with
  | .error e => .error e
  | .ok (some v) => if pyTruthy v then .ok v else extractStep3 t cleaned
  | .ok none => extractStep3 t cleaned

/-- Lowercase hexadecimal digit. -/
def hexDigit (n : Nat) : Char :=
  if n < 10 then Char.ofNat ('0'.toNat + n) else Char.ofNat ('a'.toNat + n - 10)

/-- Two lowercase hexadecimal digits. -/
def hex2 (n : Nat) : Str := [hexDigit (n / 16 % 16), hexDigit (n % 16)]

/-- Python `repr` of a string: quoted with a single quote (a double quote
when the content holds a single quote but no double quote), backslash
escapes for the quote, backslashes, newline, carriage return, tab, and
`\xHH` for the other control characters.  Non-ASCII printability subtleties
are outside the model; the validator's messages only embed plain text. -/
def pyStrRepr (s : Str) : Str :=
  let q : Char := if s.contains '\x27' && !s.contains '"' then '"' else '\x27'
  let body := s.flatMap fun c =>
    if c = '\\' then ['\\', '\\']
    else if c = q then ['\\', q]
    else if c = '\n' then ['\\', 'n']
    else if c = '\r' then ['\\', 'r']
    else if c = '\t' then ['\\', 't']
    else if c.toNat < 32 || c.toNat = 127 then '\\' :: 'x' :: hex2 c.toNat
    else [c]
  q :: body ++ [q]

mutual

/-- Python `repr` of a document value. -/
def pyRepr : JsonValue → Str
  | .null => "None".data
  | .bool true => "True".data
  | .bool false => "False".data
  | .int n => intStr n
  | .str s => pyStrRepr s
  | .arr l => '[' :: pyReprList l ++ [']']
  | .obj l => '\x7b' :: pyReprFields l ++ ['\x7d']

/-- Comma-joined reprs of a list's elements. -/
def pyReprList : List JsonValue → Str
  | [] => []
  | [v] => pyRepr v
  | v :: rest => pyRepr v ++ ',' :: ' ' :: pyReprList rest

/-- Comma-joined `key: value` reprs of a dict's items. -/
def pyReprFields : List (Str × JsonValue) → Str
  | [] => []
  | [(k, v)] => pyStrRepr k ++ ':' :: ' ' :: pyRepr v
  | (k, v) :: rest => pyStrRepr k ++ ':' :: ' ' :: pyRepr v ++ ',' :: ' ' :: pyReprFields rest

end

/-- Python `str` of a document value, as interpolated by an f-string: the
raw text for strings, `repr` recursively for containers. -/
def pyStr (v : JsonValue) : Str :=
  match v with
  | .str s => s
  | _ => pyRepr v

/-- The validator's dictionaries: insertion-ordered key-value pairs. -/
abbrev Fields := List (Str × JsonValue)

/-- Dict lookup (`d.get(k)` / `k in d`). -/
def lookupF : Fields → Str → Option JsonValue
  | [], _ => none
  | (k, v) :: r, key => if k = key then some v else lookupF r key

/-- Python `isinstance(v, int)`: true for ints and for bools, since `bool`
is a subclass of `int`. -/
def isInstInt : JsonValue → Bool
  | .int _ => true
  | .bool _ => true
  | _ => false

/-- Python `len`, defined on the sized values and a `TypeError` elsewhere. -/
def pyLen : JsonValue → Option Nat
  | .str s => some s.length
  | .arr l => some l.length
  | .obj l => some l.length
  | _ => none

/-- Python iteration, defined on lists (their elements), strings (their
characters) and dicts (their keys); a `TypeError` elsewhere. -/
def pyIter : JsonValue → Option (List JsonValue)
  | .arr l => some l
  | .str s => some (s.map fun c => .str [c])
  | .obj l => some (l.map fun p => .str p.1)
  | _ => none

/-- The numeric view Python equality uses: bools compare as 0 and 1. -/
def toNumQ : JsonValue → Option Int
  | .int n => some n
  | .bool b => some (if b then 1 else 0)
  | _ => none

/-- Python `==` as the validator exercises it: the membership tests compare
only ints and bools (anything else fails the `isinstance` check first), and
numbers compare by value, so `True == 1`.  Containers never reach a
comparison here. -/
def pyEq (a b : JsonValue) : Bool :=
  match toNumQ a, toNumQ b with
  | some x, some y => x == y
  | _, _ =>
    match a, b with
    | .null, .null => true
    | .str s, .str t => s == t
    | _, _ => false

/-- Python `x in xs` for the validator's id sets. -/
def pyMem (v : JsonValue) (l : List JsonValue) : Bool := l.any (pyEq v)

/-- Default injected for a missing `overview`. -/
def defaultOverview : JsonValue := .str "Assignment tasks to complete".data

/-- Default injected for a missing `total_estimated_time`. -/
def defaultTime : JsonValue := .str "2 hours".data

/-- The required-field loop of `validate_task_breakdown`: the two optional
textual fields are written into the input dict when absent.  (The `files`
entry of the loop raises instead; that is handled by the caller below.) -/
def applyDefaults (d : Fields) : Fields :=
  let d1 := if (lookupF d "overview".data).isNone
            then d ++ [("overview".data, defaultOverview)] else d
  if (lookupF d1 "total_estimated_time".data).isNone
  then d1 ++ [("total_estimated_time".data, defaultTime)] else d1

/-- Message for a file entry with both shapes. -/
def msgHasBoth (filename : JsonValue) : Str :=
  "File \x27".data ++ pyStr filename
    ++ "\x27 has both \x27tasks\x27 and \x27classes\x27 - must have only one".data

/-- Message for a file entry with neither shape. -/
def msgHasNeither (filename : JsonValue) : Str :=
  "File \x27".data ++ pyStr filename
    ++ "\x27 has neither \x27tasks\x27 nor \x27classes\x27 - all files must have at least one task or class".data

/-- Message for a flat task with a non-integer id. -/
def msgBadIdFlat (filename taskId : JsonValue) : Str :=
  "Task in \x27".data ++ pyStr filename ++ "\x27 has non-integer ID: ".data
    ++ pyStr taskId

/-- Message for a duplicate id (used by both the flat and the class loop). -/
def msgDupId (taskId filename : JsonValue) : Str :=
  "Duplicate task ID ".data ++ pyStr taskId ++ " in \x27".data
    ++ pyStr filename ++ "\x27".data

/-- Message for a flat task whose dependencies are not a list. -/
def msgBadDepsFlat (taskId filename : JsonValue) : Str :=
  "Task ".data ++ pyStr taskId ++ " in \x27".data ++ pyStr filename
    ++ "\x27 has invalid dependencies".data

/-- Message for a flat task with a non-integer dependency. -/
def msgBadDepFlat (taskId filename dep : JsonValue) : Str :=
  "Task ".data ++ pyStr taskId ++ " in \x27".data ++ pyStr filename
    ++ "\x27 has non-integer dependency: ".data ++ pyStr dep

/-- Message for a class whose tasks list is missing, not a list or empty. -/
def msgClassTasks (className filename : JsonValue) : Str :=
  "Class \x27".data ++ pyStr className ++ "\x27 in \x27".data ++ pyStr filename
    ++ "\x27 must have non-empty tasks list".data

/-- Message for a class task with a non-integer id. -/
def msgBadIdClass (className taskId : JsonValue) : Str :=
  "Task in class \x27".data ++ pyStr className
    ++ "\x27 has non-integer ID: ".data ++ pyStr taskId

/-- Message for a class task whose dependencies are not a list. -/
def msgBadDepsClass (taskId : JsonValue) : Str :=
  "Task ".data ++ pyStr taskId ++ " has invalid dependencies".data

/-- Message for a class task with a non-integer dependency. -/
def msgBadDepClass (taskId dep : JsonValue) : Str :=
  "Task ".data ++ pyStr taskId ++ " has non-integer dependency: ".data
    ++ pyStr dep

/-- The `has_tasks` computation for a file entry: the key is present, its
value is not `None`, and `len` of the value is positive (`len` of an
unsized value is a `TypeError`). -/
def hasTasksKey (key : Str) (fo : Fields) : Except PyErr Bool :=
  match lookupF fo key with
  | none => .ok false
  | some .null => .ok false
  | some v =>
    match pyLen v with
    | some n => .ok (decide (0 < n))
    | none => .error .typeError

/-- The exclusive-shape check of `validate_task_breakdown` (lines 361-369):
compute `has_tasks` and `has_classes`, reject a file entry having both or
neither, and hand the two flags to the task validation below. -/
def checkFileShape (filename : JsonValue) (fo : Fields) :
    Except PyErr (Bool × Bool) :=
  match hasTasksKey "tasks".data fo with
  | .error e => .error e
  | .ok hT =>
    match hasTasksKey "classes".data fo with
    | .error e => .error e
    | .ok hC =>
      if hT && hC then .error (.valueError (msgHasBoth filename))
      else if !hT && !hC then .error (.valueError (msgHasNeither filename))
      else .ok (hT, hC)

/-- One flat task of a file entry (lines 374-389): id type and uniqueness,
then dependency typing; returns the grown id set. -/
def validateTaskFlat (filename : JsonValue) (ids : List JsonValue)
    (task : JsonValue) : Except PyErr (List JsonValue) :=
  match task with
  | .obj tf =>
    let taskId := (lookupF tf "id".data).getD .null
    if !isInstInt taskId then
      .error (.valueError (msgBadIdFlat filename taskId))
    else if pyMem taskId ids then
      .error (.valueError (msgDupId taskId filename))
    else
      let deps := (lookupF tf "dependencies".data).getD (.arr [])
      match deps with
      | .arr ds =>
        match ds.find? (fun d => !isInstInt d) with
        | some d => .error (.valueError (msgBadDepFlat taskId filename d))
        | none => .ok (ids ++ [taskId])
      | _ => .error (.valueError (msgBadDepsFlat taskId filename))
  | _ => .error .attributeError

/-- The flat-task loop of a file entry. -/
def validateTasksFlat (filename : JsonValue) (ids : List JsonValue) :
    List JsonValue → Except PyErr Unit
  | [] => .ok ()
  | t :: ts =>
    match validateTaskFlat filename ids t with
    | .error e => .error e
    | .ok ids2 => validateTasksFlat filename ids2 ts

/-- One task inside a class (lines 398-411); the id set is shared by every
class of the file. -/
def validateTaskInClass (className filename : JsonValue)
    (ids : List JsonValue) (task : JsonValue) :
    Except PyErr (List JsonValue) :=
  match task with
  | .obj tf =>
    let taskId := (lookupF tf "id".data).getD .null
    if !isInstInt taskId then
      .error (.valueError (msgBadIdClass className taskId))
    else if pyMem taskId ids then
      .error (.valueError (msgDupId taskId filename))
    else
      let deps := (lookupF tf "dependencies".data).getD (.arr [])
      match deps with
      | .arr ds =>
        match ds.find? (fun d => !isInstInt d) with
        | some d => .error (.valueError (msgBadDepClass taskId d))
        | none => .ok (ids ++ [taskId])
      | _ => .error (.valueError (msgBadDepsClass taskId))
  | _ => .error .attributeError

/-- The task loop of one class, threading the file-wide id set. -/
def validateClassTaskList (className filename : JsonValue)
    (ids : List JsonValue) : List JsonValue → Except PyErr (List JsonValue)
  | [] => .ok ids
  | t :: ts =>
    match validateTaskInClass className filename ids t with
    | .error e => .error e
    | .ok ids2 => validateClassTaskList className filename ids2 ts

/-- The class loop of a file entry (lines 393-411): each class must carry a
non-empty task list; ids are collected across all classes of the file. -/
def validateClassesLoop (filename : JsonValue) (ids : List JsonValue) :
    List JsonValue → Except PyErr Unit
  | [] => .ok ()
  | c :: cs =>
    match c with
    | .obj cf =>
      let className := (lookupF cf "class_name".data).getD .null
      match lookupF cf "tasks".data with
      | some (.arr ts) =>
        if ts.isEmpty then
          .error (.valueError (msgClassTasks className filename))
        else
          match validateClassTaskList className filename ids ts with
          | .error e => .error e
          | .ok ids2 => validateClassesLoop filename ids2 cs
      | _ => .error (.valueError (msgClassTasks className filename))
    | _ => .error .attributeError

/-- Validation of one file entry (lines 354-411). -/
def checkFile (v : JsonValue) : Except PyErr Unit :=
  match v with
  | .obj fo =>
    let filename := (lookupF fo "filename".data).getD (.str "unknown".data)
    if (lookupF fo "filename".data).isNone
        || (lookupF fo "purpose".data).isNone then
      .error (.valueError "File missing required field: filename or purpose".data)
    else
      match checkFileShape filename fo with
      | .error e => .error e
      | .ok (hT, _hC) =>
        if hT then
          match lookupF fo "tasks".data with
          | some tv =>
            match pyIter tv with
            | some ts => validateTasksFlat filename [] ts
            | none => .error .typeError
          | none => .ok ()
        else
          match lookupF fo "classes".data with
          | some cv =>
            match pyIter cv with
            | some cs => validateClassesLoop filename [] cs
            | none => .error .typeError
          | none => .ok ()
  | _ => .error .attributeError

/-- The file loop of `validate_task_breakdown`. -/
def checkFiles : List JsonValue → Except PyErr Unit
  | [] => .ok ()
  | f :: fs =>
    match checkFile f with
    | .error e => .error e
    | .ok _ => checkFiles fs

/-- Model of `validate_task_breakdown`.  The Python function mutates its
input dict (filling the two optional defaults) before any check can raise;
the embedding returns the final dictionary alongside the result, so the
mutation is visible even on the error paths. -/
def validateTaskBreakdown (data : Fields) : Except PyErr Bool × Fields :=
  let d2 := applyDefaults data
  if (lookupF d2 "files".data).isNone then
    (.error (.valueError "Missing required field: files".data), d2)
  else
    match lookupF d2 "files".data with
    | some (.arr fs) =>
      if fs.isEmpty then
        (.error (.valueError "Files must be a non-empty list".data), d2)
      else
        match checkFiles fs with
        | .error e => (.error e, d2)
        | .ok _ => (.ok true, d2)
    | _ => (.error (.valueError "Files must be a non-empty list".data), d2)

/-- Claim-side scan (C7, spec words): track whether the end of the text lies
inside an open string by toggling at each quote, honoring backslash escapes. -/
def claimScanQuotes : Str → Bool → Bool → Bool
  | [], inStr, _ => inStr
  | c :: r, inStr, esc =>
    if esc then claimScanQuotes r inStr false
    else if c = '\\' then claimScanQuotes r inStr true
    else if c = '"' then claimScanQuotes r (!inStr) false
    else claimScanQuotes r inStr false

/-- Claim-side predicate: the cutoff point lies inside an open string. -/
def claimOpenString (t : Str) : Bool := claimScanQuotes t false false

/-- Claim-side count (C7, spec words): the net number of open delimiters of
the text, `o` opening and `c` closing. -/
def claimNetOpen (o c : Char) : Str → Int
  | [] => 0
  | ch :: r => (if ch = o then 1 else if ch = c then -1 else 0) + claimNetOpen o c r

/-- A task record with an integer id and no dependencies. -/
def mkTask (n : Int) : JsonValue :=
  .obj [("id".data, .int n), ("dependencies".data, .arr [])]

/-- A task record with a given id value and dependency list. -/
def mkTaskDeps (idv : JsonValue) (ds : List JsonValue) : JsonValue :=
  .obj [("id".data, idv), ("dependencies".data, .arr ds)]

/-- A file entry with flat tasks. -/
def mkFileTasks (fname : Str) (ts : List JsonValue) : JsonValue :=
  .obj [("filename".data, .str fname), ("purpose".data, .str "p".data),
        ("tasks".data, .arr ts)]

/-- A class entry. -/
def mkClass (nm : Str) (ts : List JsonValue) : JsonValue :=
  .obj [("class_name".data, .str nm), ("tasks".data, .arr ts)]

/-- A file entry with per-class task groups. -/
def mkFileClasses (fname : Str) (cs : List JsonValue) : JsonValue :=
  .obj [("filename".data, .str fname), ("purpose".data, .str "p".data),
        ("classes".data, .arr cs)]

/-- An assignment-breakdown document with the given file entries. -/
def mkBreakdown (fs : List JsonValue) : Fields :=
  [("overview".data, .str "o".data),
   ("total_estimated_time".data, .str "1h".data),
   ("files".data, .arr fs)]

/-- A file entry carrying explicit `tasks` and `classes` values. -/
def fileEntryFields (fname : Str) (tv cv : JsonValue) : Fields :=
  [("filename".data, .str fname), ("purpose".data, .str "p".data),
   ("tasks".data, tv), ("classes".data, cv)]

/-- Two files in different parts of the document carrying the same task id. -/
def crossFileDoc : Fields :=
  mkBreakdown [mkFileTasks "a.py".data [mkTask 1],
               mkFileTasks "b.py".data [mkTask 1]]

/-- One file with two flat tasks sharing an id. -/
def dupFlatDoc (n : Int) : Fields :=
  mkBreakdown [mkFileTasks "f.py".data [mkTask n, mkTask n]]

/-- One file with two classes whose tasks share an id. -/
def dupClassDoc (n : Int) : Fields :=
  mkBreakdown [mkFileClasses "f.py".data
    [mkClass "A".data [mkTask n], mkClass "B".data [mkTask n]]]

/-- A document whose task id and dependency are the boolean `true`. -/
def boolIdDoc : Fields :=
  mkBreakdown [mkFileTasks "a.py".data [mkTaskDeps (.bool true) [.bool true]]]

/-- A document with integer id and one boolean dependency. -/
def boolDepDoc : Fields :=
  mkBreakdown [mkFileTasks "g.py".data [mkTaskDeps (.int 1) [.bool true]]]

/-- A document with one task of id `n` and a single dependency value `d`. -/
def depDoc (n : Int) (d : JsonValue) : Fields :=
  mkBreakdown [mkFileTasks "f.py".data [mkTaskDeps (.int n) [d]]]

/-- A valid JSON object text whose `a` field is a 60-character string, for
the truncation-tolerance study: the 12-character prefix ends just inside the
opening quote of the string content. -/
def xRunDoc : Str :=
  "\x7b\x22b\x22:1,\x22a\x22:\x22".data ++ List.replicate 60 'x'
    ++ "\x22\x7d".data

/-- A valid JSON object text whose 20-character string content begins with
an opening-brace character: truncating it just after that brace defeats the
raw brace counting of the completion step. -/
def truncBraceDoc : Str :=
  "\x7b\x22b\x22:1,\x22a\x22:\x22aaa\x7b".data ++ List.replicate 16 'b'
    ++ "\x22\x7d".data

/-- A text mentioning `code_snippet`, cut inside a string that contains an
opening bracket, with no matching closing brace for the first brace. -/
def snippetTrunc : Str := "\x7b\x22code_snippet\x22:\x22ab[cd".data

/-- The document the repair pipeline actually produces for `snippetTrunc`. -/
def snippetTruncResult : JsonValue :=
  .obj [("code_snippet".data, .str "ab[cd".data),
        ("task_todos".data,
          .obj [("1".data,
                 .arr [.str "Review and customize the file content".data,
                       .str "Test the file format".data])])]

/-- What the extraction chain can produce: a returned value is a truthy
dict (every success path is guarded by `isinstance`-via-keys and by
truthiness), and an escaping exception is either the `AttributeError` of
the keys logging or the final typed `ValueError`. -/
def goodResult (r : Except PyErr JsonValue) : Prop :=
  (∀ v, r = .ok v → v.isObj = true ∧ pyTruthy v = true) ∧
  (∀ e, r = .error e → e = .attributeError ∨ e = .valueError extractFailMsg)

theorem tryDirectParse_ok_isObj (s : Str) (v : JsonValue)
    (h : tryDirectParse s = .ok (some v)) : v.isObj = true := by
  unfold tryDirectParse at h
  split at h
  · split at h <;> simp_all
  · simp_all

theorem tryDirectParse_err_attr (s : Str) (e : PyErr)
    (h : tryDirectParse s = .error e) : e = .attributeError := by
  unfold tryDirectParse at h
  split at h
  · split at h <;> simp_all
  · simp_all

theorem tryEnds_isObj (t : Str) (s : Nat) (es : List Nat) (v : JsonValue)
    (h : tryEnds t s es = some v) : v.isObj = true := by
  induction es with
  | nil => simp [tryEnds] at h
  | cons e es ih =>
    unfold tryEnds at h
    split at h
    · split at h
      · split at h
        · cases h; assumption
        · exact ih h
      · exact ih h
    · exact ih h

theorem tryStarts_isObj (t : Str) (ss : List Nat) (v : JsonValue)
    (h : tryStarts t ss = some v) : v.isObj = true := by
  induction ss with
  | nil => simp [tryStarts] at h
  | cons s ss ih =>
    unfold tryStarts at h
    split at h
    · cases h; exact tryEnds_isObj _ _ _ _ (by assumption)
    · exact ih h

theorem findAnyValidJson_isObj (t : Str) (v : JsonValue)
    (h : findAnyValidJson t = some v) : v.isObj = true :=
  tryStarts_isObj _ _ _ h

theorem extractStep6_good (t : Str) : goodResult (extractStep6 t) := by
  constructor <;> intro x h <;> unfold extractStep6 at h
  · split at h
    · split at h
      · cases h; exact ⟨findAnyValidJson_isObj _ _ (by assumption), by assumption⟩
      · simp_all
    · simp_all
  · split at h
    · split at h
      · simp_all
      · cases h; exact Or.inr rfl
    · cases h; exact Or.inr rfl

theorem extractStep5_good (t : Str) : goodResult (extractStep5 t) := by
  constructor <;> intro x h <;> unfold extractStep5 at h
  · split at h
    · split at h
      · simp_all
      · split at h
        · cases h
          exact ⟨tryDirectParse_ok_isObj _ _ (by assumption), by assumption⟩
        · exact (extractStep6_good t).1 _ h
      · exact (extractStep6_good t).1 _ h
    · exact (extractStep6_good t).1 _ h
  · split at h
    · split at h
      · cases h
        exact Or.inl (tryDirectParse_err_attr _ _ (by assumption))
      · split at h
        · simp_all
        · exact (extractStep6_good t).2 _ h
      · exact (extractStep6_good t).2 _ h
    · exact (extractStep6_good t).2 _ h

theorem extractAndFixJson_cases (t : Str) :
    (∀ v, extractAndFixJson t = .ok (some v) → v.isObj = true) ∧
    (∀ e, extractAndFixJson t = .error e → e = .attributeError) := by
  constructor <;> intro x h <;> unfold extractAndFixJson at h <;> dsimp only at h
  · split at h
    · simp_all
    · split at h
      · exact tryDirectParse_ok_isObj _ _ h
      · unfold compAndParseTruncated at h
        split at h
        · split at h
          · exact tryDirectParse_ok_isObj _ _ h
          · simp_all
        · simp_all
  · split at h
    · simp_all
    · split at h
      · exact tryDirectParse_err_attr _ _ h
      · unfold compAndParseTruncated at h
        split at h
        · split at h
          · exact tryDirectParse_err_attr _ _ h
          · simp_all
        · simp_all

theorem extractStep4_good (t : Str) : goodResult (extractStep4 t) := by
  constructor <;> intro x h <;> unfold extractStep4 at h
  · split at h
    · simp_all
    · split at h
      · cases h
        exact ⟨(extractAndFixJson_cases t).1 _ (by assumption), by assumption⟩
      · exact (extractStep5_good t).1 _ h
    · exact (extractStep5_good t).1 _ h
  · split at h
    · cases h
      exact Or.inl ((extractAndFixJson_cases t).2 _ (by assumption))
    · split at h
      · simp_all
      · exact (extractStep5_good t).2 _ h
    · exact (extractStep5_good t).2 _ h

theorem extractStep3_good (t cleaned : Str) : goodResult (extractStep3 t cleaned) := by
  constructor <;> intro x h <;> unfold extractStep3 at h <;> dsimp only at h
  · split at h
    · split at h
      · simp_all
      · split at h
        · cases h
          exact ⟨tryDirectParse_ok_isObj _ _ (by assumption), by assumption⟩
        · exact (extractStep4_good t).1 _ h
      · exact (extractStep4_good t).1 _ h
    · exact (extractStep4_good t).1 _ h
  · split at h
    · split at h
      · cases h
        exact Or.inl (tryDirectParse_err_attr _ _ (by assumption))
      · split at h
        · simp_all
        · exact (extractStep4_good t).2 _ h
      · exact (extractStep4_good t).2 _ h
    · exact (extractStep4_good t).2 _ h

theorem extractL_good (t : Str) : goodResult (extractL t) := by
  constructor <;> intro x h <;> unfold extractL at h <;> dsimp only at h
  · split at h
    · simp_all
    · split at h
      · cases h
        exact ⟨tryDirectParse_ok_isObj _ _ (by assumption), by assumption⟩
      · exact (extractStep3_good t _).1 _ h
    · exact (extractStep3_good t _).1 _ h
  · split at h
    · cases h
      exact Or.inl (tryDirectParse_err_attr _ _ (by assumption))
    · split at h
      · simp_all
      · exact (extractStep3_good t _).2 _ h
    · exact (extractStep3_good t _).2 _ h

/-- C2, amended: `extract` either returns a truthy (non-empty) mapping or
raises; besides the typed `ValueError` raised when every strategy is
exhausted, an `AttributeError` escapes whenever a strategy's direct parse
yields a top-level non-mapping value, because `_try_direct_parse` logs
`result.keys()` before returning. -/
theorem c2_amended_theorem (t : Str) :
    (∀ v, extractL t = .ok v → v.isObj = true ∧ pyTruthy v = true) ∧
    (∀ e, extractL t = .error e →
      e = .attributeError ∨ e = .valueError extractFailMsg) :=
  extractL_good t

/-- C2, counterexample to the claim as stated: for the input `[1]` the
direct parse yields a top-level JSON array, and `extract` raises
`AttributeError`, not the typed extraction error. -/
theorem c2_counterexample :
    extractL "[1]".data = .error .attributeError ∧
    parseJsonL "[1]".data = some (.arr [.int 1]) :=
  ⟨rfl, rfl⟩

/-- C2, witness: the amended theorem applied to the concrete input
`{"a":1}`, whose extraction returns a truthy mapping. -/
theorem c2_witness :
    (JsonValue.obj [("a".data, .int 1)]).isObj = true ∧
    pyTruthy (JsonValue.obj [("a".data, .int 1)]) = true := by
  have h := c2_amended_theorem "\x7b\x22a\x22:1\x7d".data
  exact h.1 _ rfl

/-- C9, confirmed: `extract` never returns an empty mapping — every
success path is guarded by Python truthiness — and on the input `{}` (a
valid JSON object with zero fields) it raises the final `ValueError`. -/
theorem c9_theorem :
    (∀ t v, extractL t = .ok v → v ≠ JsonValue.obj []) ∧
    extractL "\x7b\x7d".data = .error (.valueError extractFailMsg) := by
  refine ⟨fun t v h heq => ?_, rfl⟩
  have hg := (extractL_good t).1 v h
  rw [heq] at hg
  simp [pyTruthy] at hg

/-- C9, witness: the first conjunct applied to the concrete input
`{"k":2}`, whose extraction returns a non-empty mapping. -/
theorem c9_witness : JsonValue.obj [("k".data, .int 2)] ≠ JsonValue.obj [] :=
  c9_theorem.1 "\x7b\x22k\x22:2\x7d".data _ rfl

/-- C10, confirmed: a document whose task id is the boolean `true` and
whose dependency list contains a boolean passes validation, because
Python's `isinstance` treats `bool` as a subtype of `int`. -/
theorem c10_theorem : validateTaskBreakdown boolIdDoc = (.ok true, boolIdDoc) := rfl

/-- C1, counterexample to the claim as stated: a document with two files
whose tasks share the integer id 1 validates successfully — the duplicate
id sets are re-initialised for every file, so detection is not global to
the document. -/
theorem c1_counterexample :
    validateTaskBreakdown crossFileDoc = (.ok true, crossFileDoc) := rfl

/-- C1, amended: duplicate-id detection is scoped to a single file entry.
Two flat tasks of one file sharing an id, or tasks of two classes of the
same file sharing an id, raise the duplicate-id `ValueError` naming the id
and the filename; equal ids in different files are accepted (see the
counterexample). -/
theorem c1_amended_theorem (n : Int) :
    (validateTaskBreakdown (dupFlatDoc n)).1
        = .error (.valueError (msgDupId (.int n) (.str "f.py".data))) ∧
    (validateTaskBreakdown (dupClassDoc n)).1
        = .error (.valueError (msgDupId (.int n) (.str "f.py".data))) := by
  constructor <;>
    simp [validateTaskBreakdown, dupFlatDoc, dupClassDoc, mkBreakdown, applyDefaults,
          lookupF, checkFiles, checkFile, checkFileShape, hasTasksKey, pyLen, pyIter,
          mkFileTasks, mkFileClasses, mkClass, mkTask, validateTasksFlat, validateTaskFlat,
          validateClassesLoop, validateClassTaskList, validateTaskInClass,
          isInstInt, pyMem, pyEq, toNumQ]

/-- C5, confirmed: a file entry declaring both a non-empty flat task list
and a non-empty class list is rejected with a message naming the filename,
an entry declaring neither is likewise rejected, and an entry with exactly
one of the two non-empty shapes passes the exclusive-shape check. -/
theorem c5_theorem (fname : Str) (ts cs : List JsonValue)
    (h1 : ts ≠ []) (h2 : cs ≠ []) :
    (validateTaskBreakdown
        (mkBreakdown [.obj (fileEntryFields fname (.arr ts) (.arr cs))])).1
      = .error (.valueError (msgHasBoth (.str fname))) ∧
    (validateTaskBreakdown
        (mkBreakdown [.obj (fileEntryFields fname (.arr []) (.arr []))])).1
      = .error (.valueError (msgHasNeither (.str fname))) ∧
    checkFileShape (.str fname) (fileEntryFields fname (.arr ts) (.arr []))
      = .ok (true, false) ∧
    checkFileShape (.str fname) (fileEntryFields fname (.arr []) (.arr cs))
      = .ok (false, true) := by
  refine ⟨?_, ?_, ?_, ?_⟩ <;>
    simp [validateTaskBreakdown, mkBreakdown, applyDefaults, lookupF, checkFiles,
          checkFile, checkFileShape, fileEntryFields, hasTasksKey, pyLen,
          List.length_pos, h1, h2]

/-- C6, counterexample to the claim as stated: a dependency that is the
boolean `true` — not an integer — passes validation, because the code's
`isinstance(dep, int)` accepts booleans. -/
theorem c6_counterexample :
    validateTaskBreakdown boolDepDoc = (.ok true, boolDepDoc) := rfl

/-- C6, amended: a task whose dependencies contain an element that is
neither an integer nor a boolean is rejected with a `ValueError` naming the
task id and the offending dependency value. -/
theorem c6_amended_theorem (d : JsonValue) (n : Int)
    (h1 : d.isInt = false) (h2 : d.isBool = false) :
    (validateTaskBreakdown (depDoc n d)).1
      = .error (.valueError (msgBadDepFlat (.int n) (.str "f.py".data) d)) := by
  have hd : isInstInt d = false := by
    cases d <;> simp_all [isInstInt, JsonValue.isInt, JsonValue.isBool]
  simp [validateTaskBreakdown, depDoc, mkBreakdown, applyDefaults, lookupF,
        checkFiles, checkFile, checkFileShape, hasTasksKey, pyLen, pyIter,
        mkFileTasks, mkTaskDeps, validateTasksFlat, validateTaskFlat,
        pyMem, pyEq, toNumQ, List.find?, hd,
        show ∀ m : Int, isInstInt (.int m) = true from fun _ => rfl]

/-- C6, witness: the amended theorem applied to the string dependency
`"1"` on the task with id 7. -/
theorem c6_witness :
    (validateTaskBreakdown (depDoc 7 (.str "1".data))).1
      = .error (.valueError (msgBadDepFlat (.int 7) (.str "f.py".data)
          (.str "1".data))) :=
  c6_amended_theorem (.str "1".data) 7 rfl rfl

theorem validateTaskBreakdown_snd (d : Fields) :
    (validateTaskBreakdown d).2 = applyDefaults d := by
  unfold validateTaskBreakdown
  dsimp only
  repeat' split
  all_goals rfl

theorem lookupF_append (d1 d2 : Fields) (k : Str) :
    lookupF (d1 ++ d2) k
      = match lookupF d1 k with
        | some v => some v
        | none => lookupF d2 k := by
  induction d1 with
  | nil => simp [lookupF]
  | cons p d1 ih =>
    obtain ⟨k1, v1⟩ := p
    by_cases hk : k1 = k <;> simp [lookupF, hk, ih]

theorem applyDefaults_other (d : Fields) (k : Str)
    (h1 : k ≠ "overview".data) (h2 : k ≠ "total_estimated_time".data) :
    lookupF (applyDefaults d) k = lookupF d k := by
  unfold applyDefaults
  split <;> dsimp only <;> split <;>
    simp [lookupF_append, lookupF, Ne.symm h1, Ne.symm h2] <;>
    cases hl : lookupF d k <;> simp [hl]

theorem applyDefaults_overview_none (d : Fields)
    (h : lookupF d "overview".data = none) :
    lookupF (applyDefaults d) "overview".data = some defaultOverview := by
  unfold applyDefaults
  rw [h]
  split <;> dsimp only
  · split <;> simp [lookupF_append, lookupF, h]
  · simp_all

theorem applyDefaults_overview_some (d : Fields) (v : JsonValue)
    (h : lookupF d "overview".data = some v) :
    lookupF (applyDefaults d) "overview".data = some v := by
  unfold applyDefaults
  rw [h]
  split <;> dsimp only
  · simp_all
  · split <;> simp [lookupF_append, lookupF, h]

theorem applyDefaults_time_none (d : Fields)
    (h : lookupF d "total_estimated_time".data = none) :
    lookupF (applyDefaults d) "total_estimated_time".data = some defaultTime := by
  unfold applyDefaults
  split <;> dsimp only <;> split <;>
    simp_all [lookupF_append, lookupF]

theorem applyDefaults_time_some (d : Fields) (v : JsonValue)
    (h : lookupF d "total_estimated_time".data = some v) :
    lookupF (applyDefaults d) "total_estimated_time".data = some v := by
  unfold applyDefaults
  split <;> dsimp only <;> split <;>
    simp_all [lookupF_append, lookupF]

/-- C8, confirmed: validation alters no field of the input document other
than the two whitelisted optional ones — `overview` and
`total_estimated_time` are auto-defaulted when absent and kept verbatim
when present — and an absent `files` field always causes rejection. -/
theorem c8_theorem (data : Fields) :
    (∀ k, k ≠ "overview".data → k ≠ "total_estimated_time".data →
        lookupF (validateTaskBreakdown data).2 k = lookupF data k) ∧
    (∀ v, lookupF data "overview".data = some v →
        lookupF (validateTaskBreakdown data).2 "overview".data = some v) ∧
    (lookupF data "overview".data = none →
        lookupF (validateTaskBreakdown data).2 "overview".data
          = some defaultOverview) ∧
    (∀ v, lookupF data "total_estimated_time".data = some v →
        lookupF (validateTaskBreakdown data).2 "total_estimated_time".data
          = some v) ∧
    (lookupF data "total_estimated_time".data = none →
        lookupF (validateTaskBreakdown data).2 "total_estimated_time".data
          = some defaultTime) ∧
    (lookupF data "files".data = none →
        (validateTaskBreakdown data).1
          = .error (.valueError "Missing required field: files".data)) := by
  rw [validateTaskBreakdown_snd]
  refine ⟨fun k h1 h2 => applyDefaults_other data k h1 h2,
          fun v h => applyDefaults_overview_some data v h,
          fun h => applyDefaults_overview_none data h,
          fun v h => applyDefaults_time_some data v h,
          fun h => applyDefaults_time_none data h,
          fun h => ?_⟩
  have hf : lookupF (applyDefaults data) "files".data = lookupF data "files".data :=
    applyDefaults_other data _ (by decide) (by decide)
  unfold validateTaskBreakdown
  dsimp only
  rw [hf, h]
  rfl

/-- C8, witness: the defaulting and rejection conjuncts applied to the
empty document. -/
theorem c8_witness :
    lookupF (validateTaskBreakdown []).2 "overview".data = some defaultOverview ∧
    lookupF (validateTaskBreakdown []).2 "total_estimated_time".data
      = some defaultTime ∧
    (validateTaskBreakdown []).1
      = .error (.valueError "Missing required field: files".data) :=
  ⟨(c8_theorem []).2.2.1 rfl, (c8_theorem []).2.2.2.2.1 rfl,
   (c8_theorem []).2.2.2.2.2 rfl⟩

theorem claimScanQuotes_eq_inStringToggle (t : Str) (b e : Bool) :
    claimScanQuotes t b e = inStringToggle t b e := by
  induction t generalizing b e with
  | nil => rfl
  | cons c r ih =>
    unfold claimScanQuotes inStringToggle
    split_ifs <;> apply ih

theorem inStringToggle_eq_parity (t : Str) (b e : Bool) :
    inStringToggle t b e = (b != decide (quoteCountUE t e % 2 = 1)) := by
  induction t generalizing b e with
  | nil => cases b <;> simp [inStringToggle, quoteCountUE]
  | cons c r ih =>
    unfold inStringToggle quoteCountUE
    split_ifs with h1 h2 h3
    · exact ih b false
    · exact ih b true
    · rw [ih (!b) false]
      cases b <;> simp [Nat.add_mod, Nat.mod_two_eq_zero_or_one] <;>
        rcases Nat.mod_two_eq_zero_or_one (quoteCountUE r false) with h | h <;>
          simp [h]
    · exact ih b false

theorem claimOpenString_eq_parity (t : Str) :
    claimOpenString t = decide (quoteCountUE t false % 2 = 1) := by
  rw [claimOpenString, claimScanQuotes_eq_inStringToggle, inStringToggle_eq_parity]
  cases h : decide (quoteCountUE t false % 2 = 1) <;> simp

theorem claimNetOpen_eq_counts (o c : Char) (hoc : o ≠ c) (t : Str) :
    claimNetOpen o c t = (t.count o : Int) - (t.count c : Int) := by
  induction t with
  | nil => simp [claimNetOpen]
  | cons ch r ih =>
    unfold claimNetOpen
    by_cases h1 : ch = o
    · subst h1
      simp [List.count_cons, hoc, ih]
      ring
    · by_cases h2 : ch = c
      · subst h2
        simp [List.count_cons, Ne.symm h1, h1, ih]
        ring
      · simp [List.count_cons, h1, h2, Ne.symm h1, Ne.symm h2, ih]

/-- C7, counterexample to the claim as stated: on a truncated text
mentioning `code_snippet` whose first brace has no match, `extract`
returns a document with an injected `task_todos` member, while the
completion the claim describes (closing quote plus net-open brackets and
braces) produces unparseable text — so the count-based completion is not
what runs on the no-matching-brace path. -/
theorem c7_counterexample :
    extractL snippetTrunc = .ok snippetTruncResult ∧
    findMatchEnd snippetTrunc 0 false false 0 = none ∧
    parseJsonL (completeTruncatedJson snippetTrunc) = none := ⟨rfl, rfl, rfl⟩

/-- C7, amended: the count-based completion lives in the truncation step —
`_complete_truncated_json` appends a closing quote exactly when the
backslash-honoring quote scan ends inside a string, then one closing
bracket and brace per raw net-open delimiter — while the no-matching-brace
path of bracket-matched extraction instead runs the code-field-specific
completion: closing quote, optional `task_todos` placeholder and a single
closing brace, attempted only when the text mentions a code field. -/
theorem c7_amended_theorem :
    (∀ t : Str, completeTruncatedJson t
        = t ++ (if claimOpenString t then ['"'] else [])
            ++ List.replicate (claimNetOpen '[' ']' t).toNat ']'
            ++ List.replicate (claimNetOpen '{' '}' t).toNat '}') ∧
    (∀ t : Str, compAndParseTruncated t
        = if (isSubstr "\x22code_snippet\x22".data t
                || isSubstr "\x22file_content\x22".data t)
              && !(['"', '}'].isSuffixOf (pyRStrip t)) then
            tryDirectParse (t ++ (if claimOpenString t then ['"', ',', '\n'] else [])
              ++ (if isSubstr "\x22task_todos\x22".data t then [] else taskTodosText)
              ++ ['}'])
          else .ok none) ∧
    (∀ (t : Str) (start : Nat), t.findIdx? (· = '{') = some start →
        findMatchEnd (t.drop start) 0 false false 0 = none →
        extractAndFixJson t = compAndParseTruncated (t.drop start)) := by
  refine ⟨fun t => ?_, fun t => ?_, fun t start h1 h2 => ?_⟩
  · unfold completeTruncatedJson
    rw [claimOpenString_eq_parity,
        claimNetOpen_eq_counts '[' ']' (by decide) t,
        claimNetOpen_eq_counts '{' '}' (by decide) t,
        Int.toNat_sub, Int.toNat_sub]
    by_cases hq : quoteCountUE t false % 2 = 1 <;> simp [hq, List.append_assoc]
  · unfold compAndParseTruncated
    rw [show claimOpenString t = inStringToggle t false false from
          claimScanQuotes_eq_inStringToggle t false false]
    by_cases hA : (isSubstr "\x22code_snippet\x22".data t
        || isSubstr "\x22file_content\x22".data t) = true
    · by_cases hB : (['"', '}'].isSuffixOf (pyRStrip t)) = true
      · simp [hA, hB]
      · simp only [hA, Bool.not_eq_true] at *
        simp [hA, hB, List.append_assoc]
    · simp only [Bool.not_eq_true] at hA
      simp [hA]
  · unfold extractAndFixJson
    rw [h1]
    dsimp only
    rw [h2]

/-- C7, witness: the no-matching-brace conjunct applied to a concrete
text whose first brace is never closed. -/
theorem c7_witness :
    extractAndFixJson "ab\x7b\x22q\x22:\x221".data
      = compAndParseTruncated ("ab\x7b\x22q\x22:\x221".data.drop 2) :=
  c7_amended_theorem.2.2 _ 2 rfl rfl

/-- C3, counterexample to the claim as stated: `truncBraceDoc` is a valid
JSON object whose 20-character string field contains a brace character;
truncating it strictly inside that string content (after 4 of the 20
characters) makes `extract` raise, because the brace inside the string
corrupts the raw brace counts of the completion step. -/
theorem c3_counterexample :
    parseJsonL truncBraceDoc
      = some (.obj [("b".data, .int 1),
                    ("a".data, .str ("aaa\x7b".data ++ List.replicate 16 'b'))]) ∧
    truncBraceDoc.take 16 = "\x7b\x22b\x22:1,\x22a\x22:\x22aaa\x7b".data ∧
    extractL (truncBraceDoc.take 16) = .error (.valueError extractFailMsg) :=
  ⟨rfl, rfl, rfl⟩

set_option maxRecDepth 4000 in
/-- C3, amended: truncation-tolerance holds when the truncated string
content carries no structural delimiter characters: for the object
`xRunDoc` with a 60-character string field, truncating at every point
strictly inside that content yields a Document in which the untruncated
field `b` is preserved unchanged; content containing braces defeats the
heuristic (see the counterexample). -/
theorem c3_amended_theorem :
    parseJsonL xRunDoc
      = some (.obj [("b".data, .int 1), ("a".data, .str (List.replicate 60 'x'))]) ∧
    ∀ j : Nat, 1 ≤ j → j ≤ 59 →
      extractL (xRunDoc.take (12 + j))
        = .ok (.obj [("b".data, .int 1), ("a".data, .str (List.replicate j 'x'))]) := by
  refine ⟨rfl, ?_⟩
  intro j h1 h2
  interval_cases j <;> rfl

/-- C3, witness: the amended theorem applied to the cut seven characters
into the string content. -/
theorem c3_witness :
    extractL (xRunDoc.take (12 + 7))
      = .ok (.obj [("b".data, .int 1), ("a".data, .str (List.replicate 7 'x'))]) :=
  c3_amended_theorem.2 7 (by decide) (by decide)

theorem jsonWs_pyWs (c : Char) (h : jsonWs c = true) : pyWs c = true := by
  simp only [jsonWs, Bool.or_eq_true, decide_eq_true_eq] at h
  rcases h with ((h | h) | h) | h <;> simp [pyWs, h]

theorem dropWhile_append_all {p : Char → Bool} {l1 l2 : List Char}
    (h : ∀ c ∈ l1, p c = true) :
    List.dropWhile p (l1 ++ l2) = List.dropWhile p l2 := by
  induction l1 with
  | nil => simp
  | cons c r ih =>
    simp only [List.cons_append, List.dropWhile_cons, h c (by simp)]
    exact ih (fun x hx => h x (by simp [hx]))

theorem dropWhile_cons_neg {p : Char → Bool} {c : Char} {l : List Char}
    (h : p c = false) : List.dropWhile p (c :: l) = c :: l := by
  simp [List.dropWhile_cons, h]

theorem dropTrailingWs_append (l tw : List Char) (x : Char)
    (hx : pyWs x = false) (htw : ∀ c ∈ tw, pyWs c = true) :
    dropTrailingWs ((l ++ [x]) ++ tw) = l ++ [x] := by
  unfold dropTrailingWs
  rw [List.reverse_append,
      dropWhile_append_all (fun c hc => htw c (List.mem_reverse.mp hc))]
  rw [show (l ++ [x]).reverse = x :: l.reverse by simp]
  rw [dropWhile_cons_neg hx]
  simp

theorem pyStrip_of_shape (lw tw pre : Str)
    (hlw : ∀ c ∈ lw, pyWs c = true) (htw : ∀ c ∈ tw, pyWs c = true) :
    pyStrip (lw ++ (('{' :: pre) ++ ['}']) ++ tw) = ('{' :: pre) ++ ['}'] := by
  unfold pyStrip dropLeadingWs
  rw [List.append_assoc, dropWhile_append_all hlw]
  rw [show (('{' :: pre) ++ ['}']) ++ tw = '{' :: (pre ++ ['}'] ++ tw) by simp]
  rw [dropWhile_cons_neg (by decide)]
  rw [show '{' :: (pre ++ ['}'] ++ tw) = (('{' :: pre) ++ ['}']) ++ tw by simp]
  exact dropTrailingWs_append _ _ _ (by decide) htw

theorem stripFenceOpenJson_brace (l : Str) :
    stripFenceOpenJson ('{' :: l) = '{' :: l := by
  unfold stripFenceOpenJson
  split
  next b1 b2 b3 c1 c2 c3 c4 rest heq =>
    injection heq with h1 _
    subst h1
    simp [btick]
  next => rfl

theorem stripFenceOpen_brace (l : Str) :
    stripFenceOpen ('{' :: l) = '{' :: l := by
  unfold stripFenceOpen
  split
  next b1 b2 b3 rest heq =>
    injection heq with h1 _
    subst h1
    simp [btick]
  next => rfl

theorem stripFenceClose_ends_brace (pre : Str) :
    stripFenceClose (pre ++ ['}']) = pre ++ ['}'] := by
  unfold stripFenceClose
  have h1 : dropTrailingWs (pre ++ ['}']) = pre ++ ['}'] := by
    have h2 := dropTrailingWs_append pre [] '}' (by decide) (by simp)
    simpa using h2
  rw [h1]
  have h2 : ¬ ([btick, btick, btick].isSuffixOf (pre ++ ['}']) = true) := by
    intro hc
    rw [List.isSuffixOf_iff_suffix] at hc
    obtain ⟨p, hp⟩ := hc
    have h3 := congrArg List.getLast? hp
    rw [show p ++ [btick, btick, btick] = (p ++ [btick, btick]) ++ [btick] by simp]
      at h3
    rw [List.getLast?_concat, List.getLast?_concat] at h3
    exact absurd h3 (by decide)
  rw [if_neg h2]

theorem removeMarkdown_of_shape (lw tw pre : Str)
    (hlw : ∀ c ∈ lw, pyWs c = true) (htw : ∀ c ∈ tw, pyWs c = true) :
    removeMarkdown (lw ++ (('{' :: pre) ++ ['}']) ++ tw) = ('{' :: pre) ++ ['}'] := by
  unfold removeMarkdown
  rw [pyStrip_of_shape lw tw pre hlw htw]
  rw [show ('{' :: pre) ++ ['}'] = '{' :: (pre ++ ['}']) by simp]
  rw [stripFenceOpenJson_brace, stripFenceOpen_brace]
  rw [show '{' :: (pre ++ ['}']) = ('{' :: pre) ++ ['}'] by simp]
  exact stripFenceClose_ends_brace ('{' :: pre)

theorem suffix_cons_step {a : Char} {l1 l2 : List Char} (h : l1 <:+ l2) :
    l1 <:+ a :: l2 :=
  h.trans (List.suffix_cons a l2)

theorem parseHex4_suffix (s : Str) (c : Char) (r : Str)
    (h : parseHex4 s = some (c, r)) : r <:+ s := by
  unfold parseHex4 at h
  split at h
  · split at h
    · cases h
      apply suffix_cons_step; apply suffix_cons_step
      apply suffix_cons_step; apply suffix_cons_step
      exact List.suffix_refl _
    · simp at h
  · simp at h

theorem parseEscape_suffix (s : Str) (c : Char) (r : Str)
    (h : parseEscape s = some (c, r)) : r <:+ s := by
  unfold parseEscape at h
  split at h
  · simp at h
  · split_ifs at h <;>
      first
        | (cases h; exact List.suffix_cons _ _)
        | (exact suffix_cons_step (parseHex4_suffix _ _ _ h))

theorem parseStringBodyF_suffix (fuel : Nat) : ∀ (s content r : Str),
    parseStringBodyF fuel s = some (content, r) → ('"' :: r) <:+ s := by
  induction fuel with
  | zero => intro s content r h; simp [parseStringBodyF] at h
  | succ f ih =>
    intro s content r h
    cases s with
    | nil => simp [parseStringBodyF] at h
    | cons c rest =>
      simp only [parseStringBodyF] at h
      split_ifs at h with h1 h2 h3
      · cases h
        subst h1
        exact List.suffix_refl _
      · split at h
        · split at h
          · cases h
            next d rest2 hesc s' r' hrec =>
              exact suffix_cons_step
                ((ih _ _ _ hrec).trans (parseEscape_suffix _ _ _ hesc))
          · exact absurd h (by simp)
        · exact absurd h (by simp)
      · split at h
        · cases h
          next s' r' hrec => exact suffix_cons_step (ih _ _ _ hrec)
        · exact absurd h (by simp)

theorem splitDigits_suffix (s ds rest : Str)
    (h : splitDigits s = some (ds, rest)) : rest <:+ s := by
  unfold splitDigits at h
  split at h
  · exact absurd h (by simp)
  · split_ifs at h
    · cases h
      exact List.suffix_cons _ _
    · cases h
      exact suffix_cons_step (List.dropWhile_suffix _)

theorem parseNumMag_suffix (s : Str) (n : Int) (rest : Str)
    (h : parseNumMag s = some (n, rest)) : rest <:+ s := by
  unfold parseNumMag at h
  split at h
  next ds rest0 hsd =>
    split at h
    · split_ifs at h
      cases h
      exact splitDigits_suffix _ _ _ hsd
    · cases h
      exact splitDigits_suffix _ _ _ hsd
  · exact absurd h (by simp)

theorem parseNumber_suffix (s : Str) (n : Int) (r : Str)
    (h : parseNumber s = some (n, r)) : r <:+ s := by
  unfold parseNumber at h
  split at h
  · split at h
    · cases h
      next hm => exact suffix_cons_step (parseNumMag_suffix _ _ _ hm)
    · exact absurd h (by simp)
  · split at h
    · cases h
      next hm => exact parseNumMag_suffix _ _ _ hm
    · exact absurd h (by simp)

theorem expectLit_suffix (lit s r : Str) (h : expectLit lit s = some r) :
    r <:+ s := by
  unfold expectLit at h
  split at h
  · cases h; exact List.drop_suffix _ _
  · simp at h

theorem skipWs_suffix (s : Str) : skipWs s <:+ s := List.dropWhile_suffix _

theorem cons_suffix_tail {x : Char} {l s : List Char} (h : (x :: l) <:+ s) :
    l <:+ s :=
  (List.suffix_cons x l).trans h

theorem parse_suffix (fuel : Nat) :
    (∀ s v r, parseCoreF fuel s = some (v, r) → r <:+ s) ∧
    (∀ s m r, parseMembersF fuel s = some (m, r) → ('}' :: r) <:+ s) ∧
    (∀ s l r, parseElemsF fuel s = some (l, r) → (']' :: r) <:+ s) := by
  induction fuel with
  | zero =>
    refine ⟨?_, ?_, ?_⟩ <;> intro s a r h <;>
      simp [parseCoreF, parseMembersF, parseElemsF] at h
  | succ f ih =>
    obtain ⟨ihP, ihM, ihE⟩ := ih
    refine ⟨?_, ?_, ?_⟩
    · intro s v r h
      cases s with
      | nil => simp [parseCoreF] at h
      | cons c rest =>
        simp only [parseCoreF] at h
        split_ifs at h with h1 h2 h3 h4 h5 h6
        · split at h
          · next r2 heq =>
            cases h
            exact suffix_cons_step (cons_suffix_tail (heq ▸ skipWs_suffix rest))
          · split at h
            · next ps r2 hm =>
              cases h
              exact suffix_cons_step
                (cons_suffix_tail ((ihM _ _ _ hm).trans (skipWs_suffix rest)))
            · exact absurd h (by simp)
        · split at h
          · next r2 heq =>
            cases h
            exact suffix_cons_step (cons_suffix_tail (heq ▸ skipWs_suffix rest))
          · split at h
            · next vs r2 he =>
              cases h
              exact suffix_cons_step
                (cons_suffix_tail ((ihE _ _ _ he).trans (skipWs_suffix rest)))
            · exact absurd h (by simp)
        · split at h
          · next s' r' hsb =>
            cases h
            exact suffix_cons_step
              (cons_suffix_tail (parseStringBodyF_suffix _ _ _ _ hsb))
          · exact absurd h (by simp)
        · split at h
          · next r' hel =>
            cases h
            exact suffix_cons_step (expectLit_suffix _ _ _ hel)
          · exact absurd h (by simp)
        · split at h
          · next r' hel =>
            cases h
            exact suffix_cons_step (expectLit_suffix _ _ _ hel)
          · exact absurd h (by simp)
        · split at h
          · next r' hel =>
            cases h
            exact suffix_cons_step (expectLit_suffix _ _ _ hel)
          · exact absurd h (by simp)
        · split at h
          · next n1 r1 hn =>
            cases h
            exact parseNumber_suffix _ _ _ hn
          · exact absurd h (by simp)
    · intro s m r h
      simp only [parseMembersF] at h
      split at h
      next r0 =>
        split at h
        · next k r1 hk =>
          split at h
          · next r3 heq3 =>
            split at h
            · next v r5 hv =>
              split at h
              · next r7 heq5 =>
                cases h
                have c1 : ('}' :: r) <:+ r5 := heq5 ▸ skipWs_suffix r5
                have c2 : r5 <:+ r3 := (ihP _ _ _ hv).trans (skipWs_suffix r3)
                have c3 : r3 <:+ r1 :=
                  cons_suffix_tail (heq3 ▸ skipWs_suffix r1)
                have c4 : r1 <:+ r0 :=
                  cons_suffix_tail (parseStringBodyF_suffix _ _ _ _ hk)
                exact suffix_cons_step (((c1.trans c2).trans c3).trans c4)
              · next r7 heq5 =>
                split at h
                · next ps r8 hm2 =>
                  cases h
                  have c0 : ('}' :: r) <:+ r7 :=
                    (ihM _ _ _ hm2).trans (skipWs_suffix r7)
                  have c1 : r7 <:+ r5 :=
                    cons_suffix_tail (heq5 ▸ skipWs_suffix r5)
                  have c2 : r5 <:+ r3 := (ihP _ _ _ hv).trans (skipWs_suffix r3)
                  have c3 : r3 <:+ r1 :=
                    cons_suffix_tail (heq3 ▸ skipWs_suffix r1)
                  have c4 : r1 <:+ r0 :=
                    cons_suffix_tail (parseStringBodyF_suffix _ _ _ _ hk)
                  exact suffix_cons_step
                    ((((c0.trans c1).trans c2).trans c3).trans c4)
                · exact absurd h (by simp)
              · exact absurd h (by simp)
            · exact absurd h (by simp)
          · exact absurd h (by simp)
        · exact absurd h (by simp)
      next => exact absurd h (by simp)
    · intro s l r h
      simp only [parseElemsF] at h
      split at h
      · next v r1 hv =>
        split at h
        · next r2 heq =>
          cases h
          have c1 : (']' :: r) <:+ r1 := heq ▸ skipWs_suffix r1
          exact c1.trans (ihP _ _ _ hv)
        · next r2 heq =>
          split at h
          · next vs r3 he2 =>
            cases h
            have c0 : (']' :: r) <:+ r2 :=
              (ihE _ _ _ he2).trans (skipWs_suffix r2)
            have c1 : r2 <:+ r1 := cons_suffix_tail (heq ▸ skipWs_suffix r1)
            exact (c0.trans c1).trans (ihP _ _ _ hv)
          · exact absurd h (by simp)
        · exact absurd h (by simp)
      · exact absurd h (by simp)

theorem parseCore_obj_shape (fuel : Nat) (s : Str) (m : List (Str × JsonValue))
    (h : parseCoreF fuel s = some (.obj m, [])) :
    ∃ pre, s = ('{' :: pre) ++ ['}'] := by
  cases fuel with
  | zero => simp [parseCoreF] at h
  | succ f =>
    cases s with
    | nil => simp [parseCoreF] at h
    | cons c rest =>
      simp only [parseCoreF] at h
      split_ifs at h with h1 h2 h3 h4 h5 h6
      · subst h1
        split at h
        · next r2 heq =>
          cases h
          have hsuf : ['}'] <:+ rest := heq ▸ skipWs_suffix rest
          obtain ⟨p, hp⟩ := hsuf
          exact ⟨p, by rw [← hp]; simp⟩
        · split at h
          · next ps r2 hm =>
            cases h
            have hsuf : ['}'] <:+ rest :=
              ((parse_suffix f).2.1 _ _ _ hm).trans (skipWs_suffix rest)
            obtain ⟨p, hp⟩ := hsuf
            exact ⟨p, by rw [← hp]; simp⟩
          · exact absurd h (by simp)
      · split at h
        · simp at h
        · split at h <;> simp at h
      · split at h <;> simp at h
      · split at h <;> simp at h
      · split at h <;> simp at h
      · split at h <;> simp at h
      · split at h <;> simp at h

/-- C4, amended: for every text that is a valid single JSON object —
optional JSON whitespace around one object body — whose parse is a
non-empty mapping, `extract` returns exactly that direct parse: the repair
strategies are no-ops on clean input.  The empty mapping is the exception
the counterexample forces: its parse is falsy, so every strategy is
bypassed and `extract` raises. -/
theorem c4_amended_theorem (lw tw body : Str) (m : List (Str × JsonValue))
    (hlw : ∀ c ∈ lw, jsonWs c = true) (htw : ∀ c ∈ tw, jsonWs c = true)
    (hp : parseCoreF (body.length + 1) body = some (.obj m, []))
    (hm : m ≠ []) :
    extractL (lw ++ body ++ tw) = .ok (.obj m) := by
  obtain ⟨pre, hshape⟩ := parseCore_obj_shape _ _ _ hp
  have hlw' : ∀ c ∈ lw, pyWs c = true := fun c hc => jsonWs_pyWs c (hlw c hc)
  have htw' : ∀ c ∈ tw, pyWs c = true := fun c hc => jsonWs_pyWs c (htw c hc)
  have hclean : removeMarkdown (lw ++ body ++ tw) = body := by
    rw [hshape]
    exact removeMarkdown_of_shape lw tw pre hlw' htw'
  have hskip : skipWs body = body := by
    rw [hshape, show ('{' :: pre) ++ ['}'] = '{' :: (pre ++ ['}']) by simp]
    exact dropWhile_cons_neg (by decide)
  have hbody_parse : parseJsonL body = some (.obj m) := by
    unfold parseJsonL
    rw [hskip, hp]
    rfl
  have htry : tryDirectParse body = .ok (some (.obj m)) := by
    unfold tryDirectParse
    rw [hbody_parse]
    rfl
  have htruthy : pyTruthy (.obj m) = true := by
    simp [pyTruthy, hm]
  unfold extractL
  dsimp only
  rw [hclean, htry]
  dsimp only
  simp [htruthy]

/-- C4, counterexample to the claim as stated: the text `{}` is a valid
single JSON object whose direct parse succeeds, yet `extract` raises,
because the parsed empty dict is falsy at every success check. -/
theorem c4_counterexample :
    parseJsonL "\x7b\x7d".data = some (.obj []) ∧
    extractL "\x7b\x7d".data = .error (.valueError extractFailMsg) :=
  ⟨rfl, rfl⟩

/-- C4, witness: the amended theorem applied to `{"a":1}` surrounded by
whitespace. -/
theorem c4_witness :
    extractL (' ' :: ("\x7b\x22a\x22:1\x7d".data ++ ['\n']))
      = .ok (.obj [("a".data, .int 1)]) := by
  have h := c4_amended_theorem [' '] ['\n'] "\x7b\x22a\x22:1\x7d".data
    [("a".data, .int 1)] (by decide) (by decide) rfl (List.cons_ne_nil _ _)
  simpa using h

/-- C5, witness: the both-shapes conjunct applied to a concrete file entry
with one flat task and one class. -/
theorem c5_witness :
    (validateTaskBreakdown
        (mkBreakdown [.obj (fileEntryFields "a.py".data
          (.arr [.null]) (.arr [.null]))])).1
      = .error (.valueError (msgHasBoth (.str "a.py".data))) := by
  have h := c5_theorem "a.py".data [.null] [.null]
    (List.cons_ne_nil _ _) (List.cons_ne_nil _ _)
  exact h.1
